import Mathlib

/-!
Verification of the nodepool-controller reconciliation engine.

The development shallowly embeds the Go sources:
- controller/nodepool-controller.go: the inline Reconcile pipeline together
  with listNodePools, createNodePool and findMatchingNodePool;
- the refactored draft (part_001) of Reconcile delegating to
  checkPodNodeSelector (part_000) and findMatchingNodePool.

Dynamic (unstructured) Kubernetes objects are modelled by the inductive
type Val, mirroring the Go interface-value universe the controller
inspects: strings, string-keyed maps, slices, and anything else.  The
accessors nestedFieldNoCopy, nestedSliceRes and nestedStringRes follow the
semantics of the apimachinery unstructured.NestedSlice / NestedString
helpers: a missing field reports absent, a value of the wrong type reports
an accessor error.

The external store (dynamic client) is a parameter: the outcome of the
NodePool list call and of the NodePool create call.  Reconcile then becomes
a pure function from the fetched Pod and the store behaviour to an outcome
record carrying the controller result, the returned error, whether the
catalog was read, and the NodePool objects submitted for creation.
-/

/-- Universe of dynamic values, the model of the Go interface values held in
an unstructured object: strings, string-keyed maps, slices, or any other
scalar. -/
inductive Val : Type where
  | vstr (s : String) : Val
  | vmap (fields : List (String × Val)) : Val
  | varr (elems : List Val) : Val
  | vother : Val

/-- Result of a nested-field access on an unstructured object, matching the
(value, found, err) triple the apimachinery helpers return: the value when
found, absent when a path component is missing, or an accessor error when a
value has the wrong type. -/
inductive NestedRes : Type where
  | found (v : Val) : NestedRes
  | absent : NestedRes
  | fieldErr : NestedRes

/-- Lookup of a key in a Go map literal, modelled on the association list of
a Val.vmap (map literals in the controller have pairwise distinct keys). -/
def lookupField (fields : List (String × Val)) (k : String) : Option Val :=
  match fields.find? (fun kv => kv.fst == k) with
  | some kv => some kv.snd
  | none => none

/-- unstructured.NestedFieldNoCopy: walk a field path through nested maps;
a missing key reports absent, a non-map intermediate reports an error. -/
def nestedFieldNoCopy : Val → List String → NestedRes
  | v, [] => NestedRes.found v
  | Val.vmap fields, f :: rest =>
      match lookupField fields f with
      | some v2 => nestedFieldNoCopy v2 rest
      | none => NestedRes.absent
  | _, _ :: _ => NestedRes.fieldErr

/-- unstructured.NestedSlice: nested access that additionally requires the
final value to be a slice, reporting an accessor error otherwise. -/
def nestedSliceRes (v : Val) (path : List String) : NestedRes :=
  match nestedFieldNoCopy v path with
  | NestedRes.found (Val.varr xs) => NestedRes.found (Val.varr xs)
  | NestedRes.found _ => NestedRes.fieldErr
  | NestedRes.absent => NestedRes.absent
  | NestedRes.fieldErr => NestedRes.fieldErr

/-- unstructured.NestedString: nested access that additionally requires the
final value to be a string, reporting an accessor error otherwise. -/
def nestedStringRes (v : Val) (path : List String) : NestedRes :=
  match nestedFieldNoCopy v path with
  | NestedRes.found (Val.vstr s) => NestedRes.found (Val.vstr s)
  | NestedRes.found _ => NestedRes.fieldErr
  | NestedRes.absent => NestedRes.absent
  | NestedRes.fieldErr => NestedRes.fieldErr

/-- The field path under which a NodePool object stores its taints. -/
def taintsPath : List String := ["spec", "template", "spec", "taints"]

/-- Outcome of a NodePool create call against the dynamic client: the
AlreadyExists API error is distinguished because the specification singles
it out. -/
inductive CreateErr : Type where
  | alreadyExists : CreateErr
  | other (msg : String) : CreateErr

/-- Message text of a create-call error (the controller only wraps it). -/
def createErrMsg : CreateErr → String
  | CreateErr.alreadyExists => "nodepools.karpenter.sh already exists"
  | CreateErr.other m => m

/-- Behaviour of the external resource store for one reconciliation pass:
whether the dynamic client is nil, the outcome of the NodePool list call,
and the outcome of a NodePool create call. -/
structure Store : Type where
  clientNil : Bool
  listResult : Except String (List Val)
  createErr : Option CreateErr

/-- The Pod fields the controller reads: lifecycle phase and the
nodeSelector map of the spec. -/
structure Pod : Type where
  phase : String
  nodeSelector : List (String × String)

/-- Outcome of fetching the Pod named by the reconcile request. -/
inductive GetResult : Type where
  | ok (pod : Pod) : GetResult
  | notFound : GetResult
  | otherErr (msg : String) : GetResult

/-- One second as a Go time.Duration (nanoseconds). -/
def timeSecond : Nat := 1000000000

/-- ctrl.Result: the requeue delay requested from the dispatcher
(0 encodes the zero Result, i.e. no re-check scheduled). -/
structure CtrlResult : Type where
  requeueAfter : Nat

/-- Observable outcome of one Reconcile invocation: the returned
(ctrl.Result, error) pair, whether the NodePool catalog list was invoked,
and the NodePool objects submitted to the create call. -/
structure RecOutcome : Type where
  result : CtrlResult
  error : Option String
  listCalled : Bool
  creates : List Val

/-- listNodePools: returns an error when the dynamic client is nil,
otherwise the outcome of the list call with a wrapped error message.
The function appears identically in both drafts of the controller. -/
def listNodePools (s : Store) : Except String (List Val) :=
  if s.clientNil then Except.error "dynamic client is nil"
  else
    match s.listResult with
    | Except.error e => Except.error ("failed to list NodePools: " ++ e)
    | Except.ok items => Except.ok items

/-- Name of the NodePool created for a provision-for-team value, from
fmt.Sprintf in createNodePool. -/
def nodePoolName (v : String) : String := "nodepool-" ++ v

/-- The single taint placed on a created NodePool. -/
def nodePoolTaint (v : String) : Val :=
  Val.vmap [("key", Val.vstr "provision-for-team"),
            ("value", Val.vstr v),
            ("effect", Val.vstr "NoSchedule")]

/-- The unstructured NodePool object built by createNodePool, field by
field as in the Go literal. -/
def nodePoolObj (v : String) : Val :=
  Val.vmap [
    ("apiVersion", Val.vstr "karpenter.sh/v1"),
    ("kind", Val.vstr "NodePool"),
    ("metadata", Val.vmap [("name", Val.vstr (nodePoolName v))]),
    ("spec", Val.vmap [
      ("limits", Val.vmap [("cpu", Val.vstr "12000m"),
                           ("memory", Val.vstr "64Gi")]),
      ("template", Val.vmap [
        ("spec", Val.vmap [
          ("taints", Val.varr [nodePoolTaint v]),
          ("nodeClassRef", Val.vmap [("group", Val.vstr "karpenter.k8s.aws"),
                                     ("kind", Val.vstr "EC2NodeClass"),
                                     ("name", Val.vstr "custom")]),
          ("requirements", Val.varr [
            Val.vmap [("key", Val.vstr "karpenter.sh/capacity-type"),
                      ("operator", Val.vstr "In"),
                      ("values", Val.varr [Val.vstr "spot"])]]),
          ("expireAfter", Val.vstr "24h")])]),
      ("disruption", Val.vmap [
        ("budgets", Val.varr [Val.vmap [("nodes", Val.vstr "10%")]]),
        ("consolidateAfter", Val.vstr "10m"),
        ("consolidationPolicy", Val.vstr "WhenEmpty")])])]

/-- createNodePool: builds the NodePool object and submits it; any error
from the create call is wrapped and returned.  Returns the submitted object
together with the returned error.  The function appears identically in both
drafts of the controller. -/
def createNodePool (s : Store) (v : String) : Val × Option String :=
  (nodePoolObj v,
   match s.createErr with
   | some e => some ("failed to create NodePool: " ++ createErrMsg e)
   | none => none)

/-- Inner taint loop of findMatchingNodePool: skip a taint that is not a
map, skip a taint whose value field is missing or not a string, and stop
at the first taint whose value equals the demand value. -/
def scanTaints (v : String) : List Val → Bool
  | [] => false
  | t :: rest =>
    match t with
    | Val.vmap taintMap =>
      match nestedStringRes (Val.vmap taintMap) ["value"] with
      | NestedRes.found (Val.vstr s) => if s == v then true else scanTaints v rest
      | _ => scanTaints v rest
    | _ => scanTaints v rest

/-- Outer NodePool loop of findMatchingNodePool: a pool whose taints field
is missing or not a slice is skipped (err or not-found both continue), and
the scan stops at the first pool with a matching taint. -/
def scanPools (v : String) : List Val → Bool
  | [] => false
  | p :: rest =>
    match nestedSliceRes p taintsPath with
    | NestedRes.found (Val.varr ts) =>
        if scanTaints v ts then true else scanPools v rest
    | _ => scanPools v rest

/-- findMatchingNodePool: list the NodePools, propagate a list failure,
otherwise scan for a taint whose value equals the demand value. -/
def findMatchingNodePool (s : Store) (v : String) : Except String Bool :=
  match listNodePools s with
  | Except.error e => Except.error e
  | Except.ok pools => Except.ok (scanPools v pools)

/-- Inner taint loop of the inline Reconcile draft (the loop body in
nodepool-controller.go distinguishes the not-a-map and missing-value
continue branches). -/
def scanTaintsInline (v : String) : List Val → Bool
  | [] => false
  | t :: rest =>
    match t with
    | Val.vmap taintMap =>
      match nestedStringRes (Val.vmap taintMap) ["value"] with
      | NestedRes.found (Val.vstr s) =>
          if s == v then true else scanTaintsInline v rest
      | NestedRes.absent => scanTaintsInline v rest
      | NestedRes.fieldErr => scanTaintsInline v rest
      | NestedRes.found _ => scanTaintsInline v rest
    | _ => scanTaintsInline v rest

/-- Outer NodePool loop of the inline Reconcile draft, with the separate
err-continue and not-found-continue branches of the source. -/
def scanPoolsInline (v : String) : List Val → Bool
  | [] => false
  | p :: rest =>
    match nestedSliceRes p taintsPath with
    | NestedRes.fieldErr => scanPoolsInline v rest
    | NestedRes.absent => scanPoolsInline v rest
    | NestedRes.found (Val.varr ts) =>
        if scanTaintsInline v ts then true else scanPoolsInline v rest
    | NestedRes.found _ => scanPoolsInline v rest

/-- checkPodNodeSelector (part_000): look up the provision-for-team key in
the nodeSelector of the Pod spec; a Go map read yields the empty string
with a false flag when the key is absent. -/
def checkPodNodeSelector (pod : Pod) : String × Bool :=
  match pod.nodeSelector.lookup "provision-for-team" with
  | some v => (v, true)
  | none => ("", false)

/-- The inline Reconcile of controller/nodepool-controller.go, as a pure
function of the Pod fetch outcome and the store behaviour. -/
def reconcileInline (g : GetResult) (s : Store) : RecOutcome :=
  match g with
  | GetResult.notFound => ⟨⟨0⟩, none, false, []⟩
  | GetResult.otherErr e => ⟨⟨0⟩, some e, false, []⟩
  | GetResult.ok pod =>
    if pod.phase == "Pending" then
      match pod.nodeSelector.lookup "provision-for-team" with
      | none => ⟨⟨0⟩, none, false, []⟩
      | some v =>
        match listNodePools s with
        | Except.error e => ⟨⟨0⟩, some e, true, []⟩
        | Except.ok nodePools =>
          if scanPoolsInline v nodePools then
            ⟨⟨5 * timeSecond⟩, none, true, []⟩
          else
            match createNodePool s v with
            | (obj, some e) => ⟨⟨0⟩, some e, true, [obj]⟩
            | (obj, none) => ⟨⟨10 * timeSecond⟩, none, true, [obj]⟩
    else ⟨⟨0⟩, none, false, []⟩

/-- The refactored Reconcile draft (part_001), delegating to
checkPodNodeSelector and findMatchingNodePool. -/
def reconcileRefactored (g : GetResult) (s : Store) : RecOutcome :=
  match g with
  | GetResult.notFound => ⟨⟨0⟩, none, false, []⟩
  | GetResult.otherErr e => ⟨⟨0⟩, some e, false, []⟩
  | GetResult.ok pod =>
    if pod.phase == "Pending" then
      match checkPodNodeSelector pod with
      | (_, false) => ⟨⟨0⟩, none, false, []⟩
      | (v, true) =>
        match findMatchingNodePool s v with
        | Except.error e => ⟨⟨0⟩, some e, true, []⟩
        | Except.ok matched =>
          if matched then ⟨⟨5 * timeSecond⟩, none, true, []⟩
          else
            match createNodePool s v with
            | (obj, some e) => ⟨⟨0⟩, some e, true, [obj]⟩
            | (obj, none) => ⟨⟨10 * timeSecond⟩, none, true, [obj]⟩
    else ⟨⟨0⟩, none, false, []⟩

/-- Declarative reading of a taint entry: its value field when the entry is
a map carrying a string under the value key, none otherwise. -/
def taintValue : Val → Option String
  | Val.vmap fields =>
    match lookupField fields "value" with
    | some (Val.vstr s) => some s
    | _ => none
  | _ => none

/-- A pool has a well-formed taint with the given value: its taints field
resolves to a slice one of whose entries carries that string value. -/
def PoolMatches (p : Val) (v : String) : Prop :=
  ∃ ts, nestedSliceRes p taintsPath = NestedRes.found (Val.varr ts) ∧
    ∃ t ∈ ts, taintValue t = some v

/-- A malformed catalog entry in the sense of the specification: the taints
field is absent or not a slice, or every taint in it is not a map or lacks
a string value field. -/
def poolMalformed (p : Val) : Bool :=
  match nestedSliceRes p taintsPath with
  | NestedRes.found (Val.varr ts) => ts.all (fun t => (taintValue t).isNone)
  | _ => true

/-! ### Helper lemmas -/

theorem scanTaints_inline_eq (v : String) (ts : List Val) :
    scanTaintsInline v ts = scanTaints v ts := by
  induction ts with
  | nil => rfl
  | cons t rest ih =>
    cases t with
    | vmap taintMap =>
      simp only [scanTaintsInline, scanTaints]
      cases h : nestedStringRes (Val.vmap taintMap) ["value"] with
      | found w => cases w <;> simp [ih]
      | absent => simp [ih]
      | fieldErr => simp [ih]
    | vstr s => simpa [scanTaintsInline, scanTaints] using ih
    | varr xs => simpa [scanTaintsInline, scanTaints] using ih
    | vother => simpa [scanTaintsInline, scanTaints] using ih

theorem scanPools_inline_eq (v : String) (pools : List Val) :
    scanPoolsInline v pools = scanPools v pools := by
  induction pools with
  | nil => rfl
  | cons p rest ih =>
    simp only [scanPoolsInline, scanPools]
    cases h : nestedSliceRes p taintsPath with
    | found w => cases w <;> simp [ih, scanTaints_inline_eq]
    | absent => simp [ih]
    | fieldErr => simp [ih]

theorem nestedStringRes_vmap_key (m : List (String × Val)) (k : String) :
    nestedStringRes (Val.vmap m) [k] =
      match lookupField m k with
      | some (Val.vstr s) => NestedRes.found (Val.vstr s)
      | some (Val.vmap _) => NestedRes.fieldErr
      | some (Val.varr _) => NestedRes.fieldErr
      | some Val.vother => NestedRes.fieldErr
      | none => NestedRes.absent := by
  simp only [nestedStringRes, nestedFieldNoCopy]
  cases h : lookupField m k with
  | none => rfl
  | some w => cases w <;> rfl

theorem scanTaints_true_iff (v : String) (ts : List Val) :
    scanTaints v ts = true ↔ ∃ t ∈ ts, taintValue t = some v := by
  induction ts with
  | nil => simp [scanTaints]
  | cons t rest ih =>
    cases t with
    | vmap taintMap =>
      simp only [scanTaints, nestedStringRes_vmap_key]
      cases h : lookupField taintMap "value" with
      | none => simp [taintValue, h, ih]
      | some w =>
        cases w with
        | vstr s =>
          by_cases hsv : s = v
          · subst hsv; simp [taintValue, h]
          · simp [taintValue, h, hsv, ih]
        | vmap fs => simp [taintValue, h, ih]
        | varr xs => simp [taintValue, h, ih]
        | vother => simp [taintValue, h, ih]
    | vstr s => simp [scanTaints, taintValue, ih]
    | varr xs => simp [scanTaints, taintValue, ih]
    | vother => simp [scanTaints, taintValue, ih]

theorem scanPools_true_iff (v : String) (pools : List Val) :
    scanPools v pools = true ↔ ∃ p ∈ pools, PoolMatches p v := by
  induction pools with
  | nil => simp [scanPools]
  | cons p rest ih =>
    have hcons : (∃ q ∈ p :: rest, PoolMatches q v) ↔
        PoolMatches p v ∨ ∃ q ∈ rest, PoolMatches q v := by
      simp
    rw [hcons, ← ih]
    simp only [scanPools]
    cases h : nestedSliceRes p taintsPath with
    | found w =>
      cases w with
      | varr ts =>
        have hpm : PoolMatches p v ↔ ∃ t ∈ ts, taintValue t = some v := by
          constructor
          · rintro ⟨ts2, hts2, ht⟩
            rw [h] at hts2
            simp only [NestedRes.found.injEq, Val.varr.injEq] at hts2
            subst hts2
            exact ht
          · intro ht
            exact ⟨ts, h, ht⟩
        rw [hpm, ← scanTaints_true_iff]
        by_cases hm : scanTaints v ts = true
        · simp [hm]
        · simp [hm]
      | vstr s =>
        have hpm : ¬ PoolMatches p v := by
          rintro ⟨ts2, hts2, -⟩
          rw [h] at hts2
          simp at hts2
        simp [hpm]
      | vmap fs =>
        have hpm : ¬ PoolMatches p v := by
          rintro ⟨ts2, hts2, -⟩
          rw [h] at hts2
          simp at hts2
        simp [hpm]
      | vother =>
        have hpm : ¬ PoolMatches p v := by
          rintro ⟨ts2, hts2, -⟩
          rw [h] at hts2
          simp at hts2
        simp [hpm]
    | absent =>
      have hpm : ¬ PoolMatches p v := by
        rintro ⟨ts2, hts2, -⟩
        rw [h] at hts2
        simp at hts2
      simp [hpm]
    | fieldErr =>
      have hpm : ¬ PoolMatches p v := by
        rintro ⟨ts2, hts2, -⟩
        rw [h] at hts2
        simp at hts2
      simp [hpm]

theorem poolMalformed_not_matches (p : Val) (D : String)
    (hp : poolMalformed p = true) : ¬ PoolMatches p D := by
  rintro ⟨ts, hts, t, htmem, htv⟩
  unfold poolMalformed at hp
  rw [hts] at hp
  have hall := List.all_eq_true.mp hp t htmem
  rw [htv] at hall
  simp at hall

theorem scanPools_malformed_cons (v : String) (p : Val) (l : List Val)
    (hp : poolMalformed p = true) :
    scanPools v (p :: l) = scanPools v l := by
  unfold poolMalformed at hp
  simp only [scanPools]
  cases h : nestedSliceRes p taintsPath with
  | found w =>
    cases w with
    | varr ts =>
      rw [h] at hp
      have hst : scanTaints v ts = false := by
        cases hscan : scanTaints v ts
        · rfl
        · exfalso
          rcases (scanTaints_true_iff v ts).mp hscan with ⟨t, htmem, htv⟩
          have hall := List.all_eq_true.mp hp t htmem
          rw [htv] at hall
          simp at hall
      simp [hst]
    | vstr s => rfl
    | vmap fields => rfl
    | vother => rfl
  | absent => rfl
  | fieldErr => rfl

theorem scanPools_append (v : String) (l1 l2 : List Val) :
    scanPools v (l1 ++ l2) = (scanPools v l1 || scanPools v l2) := by
  induction l1 with
  | nil => simp [scanPools]
  | cons p rest ih =>
    simp only [List.cons_append, scanPools]
    cases h : nestedSliceRes p taintsPath with
    | found w =>
      cases w with
      | varr ts => simp [ih, Bool.or_assoc]
      | vstr s => simp [ih]
      | vmap fields => simp [ih]
      | vother => simp [ih]
    | absent => simp [ih]
    | fieldErr => simp [ih]

/-! ### Concrete fixtures used by witnesses and counterexamples -/

/-- A Pending Pod requesting the payments team pool. -/
def podPayments : Pod := ⟨"Pending", [("provision-for-team", "payments")]⟩

/-- A Pending Pod with an empty nodeSelector. -/
def podNoSelector : Pod := ⟨"Pending", []⟩

/-- A Pod already scheduled (phase Running). -/
def podRunning : Pod := ⟨"Running", [("provision-for-team", "payments")]⟩

/-- A well-formed catalog entry whose single taint carries the value
payments under an unrelated key and effect. -/
def poolPayments : Val :=
  Val.vmap [("spec", Val.vmap [("template", Val.vmap [("spec", Val.vmap [
    ("taints", Val.varr [Val.vmap [("key", Val.vstr "some-other-key"),
                                   ("value", Val.vstr "payments"),
                                   ("effect", Val.vstr "NoExecute")]])])])])]

/-- A malformed catalog entry: its taints field holds a non-map entry and a
map without a string value field. -/
def poolBroken : Val :=
  Val.vmap [("spec", Val.vmap [("template", Val.vmap [("spec", Val.vmap [
    ("taints", Val.varr [Val.vstr "oops",
                         Val.vmap [("key", Val.vstr "provision-for-team")]])])])])]

/-- A store with an empty catalog whose create call succeeds. -/
def storeEmptyOk : Store := ⟨false, Except.ok [], none⟩

/-- A store with an empty catalog whose create call fails with
AlreadyExists. -/
def storeEmptyAE : Store := ⟨false, Except.ok [], some CreateErr.alreadyExists⟩

/-- A store whose catalog contains the matching payments pool. -/
def storeMatched : Store := ⟨false, Except.ok [poolPayments], none⟩

/-- A store whose list call fails with a transport error. -/
def storeListErr : Store := ⟨false, Except.error "connection refused", none⟩

/-! ### Claims -/

/-- C10: the two drafts of the decision pipeline are equivalent: for every
Pod fetch outcome and every behaviour of the external store, the inline
Reconcile of nodepool-controller.go and the refactored Reconcile of
part_001 return the same (result, error) pair, read the catalog under the
same conditions, and submit the same create calls. -/
theorem reconcile_drafts_equivalent (g : GetResult) (s : Store) :
    reconcileInline g s = reconcileRefactored g s := by
  cases g with
  | notFound => rfl
  | otherErr e => rfl
  | ok pod =>
    simp only [reconcileInline, reconcileRefactored, checkPodNodeSelector,
      findMatchingNodePool]
    cases hph : pod.phase == "Pending"
    · simp [hph]
    · simp only [hph, if_true]
      cases hns : pod.nodeSelector.lookup "provision-for-team" with
      | none => simp
      | some v =>
        simp only
        cases hls : listNodePools s with
        | error e => simp
        | ok pools =>
          simp only
          rw [scanPools_inline_eq]

/-- C1: for every pending workload whose demand identifier is matched by
some pool in the listed catalog (some pool has a taint whose value equals
the identifier), neither draft of Reconcile submits any create call. -/
theorem matched_demand_never_creates (pod : Pod) (s : Store) (D : String)
    (pools : List Val)
    (hph : pod.phase = "Pending")
    (hns : pod.nodeSelector.lookup "provision-for-team" = some D)
    (hl : listNodePools s = Except.ok pools)
    (hm : ∃ p ∈ pools, PoolMatches p D) :
    (reconcileInline (GetResult.ok pod) s).creates = [] ∧
    (reconcileRefactored (GetResult.ok pod) s).creates = [] := by
  have hscan : scanPools D pools = true := (scanPools_true_iff D pools).mpr hm
  constructor <;>
    simp [reconcileInline, reconcileRefactored, checkPodNodeSelector,
      findMatchingNodePool, hph, hns, hl, scanPools_inline_eq, hscan]

/-- Witness for C1: a pending payments workload against a catalog holding
a matching pool yields no create call. -/
theorem matched_demand_never_creates_witness :
    (reconcileInline (GetResult.ok podPayments) storeMatched).creates = [] ∧
    (reconcileRefactored (GetResult.ok podPayments) storeMatched).creates = [] := by
  have hm : PoolMatches poolPayments "payments" := by
    refine ⟨[Val.vmap [("key", Val.vstr "some-other-key"),
                       ("value", Val.vstr "payments"),
                       ("effect", Val.vstr "NoExecute")]], rfl, ?_⟩
    exact ⟨_, List.mem_singleton_self _, rfl⟩
  exact matched_demand_never_creates podPayments storeMatched "payments"
    [poolPayments] rfl rfl rfl ⟨poolPayments, List.mem_singleton_self _, hm⟩

/-- C4: the matcher returns true exactly when some pool of the listed
catalog has some taint whose value field equals the demand identifier;
the characterization reads only the value field of each taint, so key and
effect do not take part in the predicate. -/
theorem matcher_true_iff (s : Store) (pools : List Val) (D : String)
    (hl : listNodePools s = Except.ok pools) :
    (findMatchingNodePool s D = Except.ok true ↔
      ∃ p ∈ pools, PoolMatches p D) := by
  simp only [findMatchingNodePool, hl]
  rw [← scanPools_true_iff]
  simp

/-- Witness for C4: the characterization instantiated on a catalog with one
matching pool. -/
theorem matcher_true_iff_witness :
    findMatchingNodePool storeMatched "payments" = Except.ok true ↔
      ∃ p ∈ [poolPayments], PoolMatches p "payments" :=
  matcher_true_iff storeMatched [poolPayments] "payments" rfl

/-- C5: when the catalog list operation fails, both drafts of Reconcile
surface that error to the caller and submit no create call. -/
theorem list_error_aborts (pod : Pod) (s : Store) (D e : String)
    (hph : pod.phase = "Pending")
    (hns : pod.nodeSelector.lookup "provision-for-team" = some D)
    (hl : listNodePools s = Except.error e) :
    ((reconcileInline (GetResult.ok pod) s).error = some e ∧
     (reconcileInline (GetResult.ok pod) s).creates = []) ∧
    ((reconcileRefactored (GetResult.ok pod) s).error = some e ∧
     (reconcileRefactored (GetResult.ok pod) s).creates = []) := by
  constructor <;> constructor <;>
    simp [reconcileInline, reconcileRefactored, checkPodNodeSelector,
      findMatchingNodePool, hph, hns, hl]

/-- Witness for C5: a transport error on the list call is surfaced with no
create call. -/
theorem list_error_aborts_witness :
    ((reconcileInline (GetResult.ok podPayments) storeListErr).error =
        some "failed to list NodePools: connection refused" ∧
     (reconcileInline (GetResult.ok podPayments) storeListErr).creates = []) ∧
    ((reconcileRefactored (GetResult.ok podPayments) storeListErr).error =
        some "failed to list NodePools: connection refused" ∧
     (reconcileRefactored (GetResult.ok podPayments) storeListErr).creates = []) :=
  list_error_aborts podPayments storeListErr "payments"
    "failed to list NodePools: connection refused" rfl rfl rfl

/-- C6: a malformed catalog entry is skipped without aborting the scan:
inserting it anywhere leaves the matcher outcome unchanged, and the matcher
still returns true whenever another, well-formed pool of the same list has
a taint whose value equals the identifier. -/
theorem malformed_pool_skipped (p : Val) (l1 l2 : List Val) (D : String)
    (ce : Option CreateErr) (hp : poolMalformed p = true) :
    findMatchingNodePool ⟨false, Except.ok (l1 ++ p :: l2), ce⟩ D =
      findMatchingNodePool ⟨false, Except.ok (l1 ++ l2), ce⟩ D ∧
    ((∃ q ∈ l1 ++ l2, PoolMatches q D) →
      findMatchingNodePool ⟨false, Except.ok (l1 ++ p :: l2), ce⟩ D =
        Except.ok true) := by
  have hl1 : listNodePools ⟨false, Except.ok (l1 ++ p :: l2), ce⟩ =
      Except.ok (l1 ++ p :: l2) := rfl
  have hl2 : listNodePools ⟨false, Except.ok (l1 ++ l2), ce⟩ =
      Except.ok (l1 ++ l2) := rfl
  have hscan : scanPools D (l1 ++ p :: l2) = scanPools D (l1 ++ l2) := by
    rw [scanPools_append, scanPools_malformed_cons D p l2 hp, ← scanPools_append]
  constructor
  · simp only [findMatchingNodePool, hl1, hl2, hscan]
  · intro hm
    simp only [findMatchingNodePool, hl1, hscan]
    exact congrArg Except.ok ((scanPools_true_iff D (l1 ++ l2)).mpr hm)

/-- Witness for C6: a pool with a non-map taint and a taint lacking a
string value does not stop a later well-formed pool from matching. -/
theorem malformed_pool_skipped_witness :
    (findMatchingNodePool ⟨false, Except.ok ([] ++ poolBroken :: [poolPayments]), none⟩
        "payments" =
      findMatchingNodePool ⟨false, Except.ok ([] ++ [poolPayments]), none⟩ "payments") ∧
    ((∃ q ∈ [] ++ [poolPayments], PoolMatches q "payments") →
      findMatchingNodePool ⟨false, Except.ok ([] ++ poolBroken :: [poolPayments]), none⟩
          "payments" = Except.ok true) :=
  malformed_pool_skipped poolBroken [] [poolPayments] "payments" none rfl

/-- C7: a pending workload whose nodeSelector lacks the provision-for-team
key yields, in both drafts, no catalog read, no create call, no requeue and
no error. -/
theorem no_demand_noop (pod : Pod) (s : Store)
    (hph : pod.phase = "Pending")
    (hns : pod.nodeSelector.lookup "provision-for-team" = none) :
    reconcileInline (GetResult.ok pod) s = ⟨⟨0⟩, none, false, []⟩ ∧
    reconcileRefactored (GetResult.ok pod) s = ⟨⟨0⟩, none, false, []⟩ := by
  constructor <;>
    simp [reconcileInline, reconcileRefactored, checkPodNodeSelector, hph, hns]

/-- Witness for C7: a pending Pod with an empty nodeSelector is a complete
no-op. -/
theorem no_demand_noop_witness :
    reconcileInline (GetResult.ok podNoSelector) storeEmptyOk = ⟨⟨0⟩, none, false, []⟩ ∧
    reconcileRefactored (GetResult.ok podNoSelector) storeEmptyOk = ⟨⟨0⟩, none, false, []⟩ :=
  no_demand_noop podNoSelector storeEmptyOk rfl rfl

/-- C2 counterexample: when the create call fails with AlreadyExists on an
unmatched pending demand, neither draft treats it as success: an error is
surfaced and no 10-second re-check is requested. -/
theorem alreadyExists_not_benign :
    (¬ ((reconcileInline (GetResult.ok podPayments) storeEmptyAE).error = none ∧
        (reconcileInline (GetResult.ok podPayments) storeEmptyAE).result.requeueAfter =
          10 * timeSecond)) ∧
    (¬ ((reconcileRefactored (GetResult.ok podPayments) storeEmptyAE).error = none ∧
        (reconcileRefactored (GetResult.ok podPayments) storeEmptyAE).result.requeueAfter =
          10 * timeSecond)) := by
  constructor
  · intro h
    have he : (reconcileInline (GetResult.ok podPayments) storeEmptyAE).error =
        some "failed to create NodePool: nodepools.karpenter.sh already exists" := rfl
    rw [he] at h
    exact Option.noConfusion h.1
  · intro h
    have he : (reconcileRefactored (GetResult.ok podPayments) storeEmptyAE).error =
        some "failed to create NodePool: nodepools.karpenter.sh already exists" := rfl
    rw [he] at h
    exact Option.noConfusion h.1

/-- C2 amended: when the create call fails with AlreadyExists on an
unmatched pending demand, both drafts surface the wrapped error to the
caller and request no re-check delay: AlreadyExists is not special-cased. -/
theorem alreadyExists_error_surfaced (pod : Pod) (s : Store) (D : String)
    (pools : List Val)
    (hph : pod.phase = "Pending")
    (hns : pod.nodeSelector.lookup "provision-for-team" = some D)
    (hl : listNodePools s = Except.ok pools)
    (hm : ¬ ∃ p ∈ pools, PoolMatches p D)
    (hce : s.createErr = some CreateErr.alreadyExists) :
    ((reconcileInline (GetResult.ok pod) s).error =
        some ("failed to create NodePool: " ++ createErrMsg CreateErr.alreadyExists) ∧
     (reconcileInline (GetResult.ok pod) s).result.requeueAfter = 0) ∧
    ((reconcileRefactored (GetResult.ok pod) s).error =
        some ("failed to create NodePool: " ++ createErrMsg CreateErr.alreadyExists) ∧
     (reconcileRefactored (GetResult.ok pod) s).result.requeueAfter = 0) := by
  have hscan : scanPools D pools = false := by
    cases h : scanPools D pools
    · rfl
    · exact absurd ((scanPools_true_iff D pools).mp h) hm
  constructor <;> constructor <;>
    simp [reconcileInline, reconcileRefactored, checkPodNodeSelector,
      findMatchingNodePool, createNodePool, hph, hns, hl, hscan, hce,
      scanPools_inline_eq]

/-- Witness for the amended C2: a duplicate trigger against an empty
catalog whose create call reports AlreadyExists surfaces the error. -/
theorem alreadyExists_error_surfaced_witness :
    ((reconcileInline (GetResult.ok podPayments) storeEmptyAE).error =
        some ("failed to create NodePool: " ++ createErrMsg CreateErr.alreadyExists) ∧
     (reconcileInline (GetResult.ok podPayments) storeEmptyAE).result.requeueAfter = 0) ∧
    ((reconcileRefactored (GetResult.ok podPayments) storeEmptyAE).error =
        some ("failed to create NodePool: " ++ createErrMsg CreateErr.alreadyExists) ∧
     (reconcileRefactored (GetResult.ok podPayments) storeEmptyAE).result.requeueAfter = 0) :=
  alreadyExists_error_surfaced podPayments storeEmptyAE "payments" []
    rfl rfl rfl (by simp) rfl

/-- C3 counterexample: the name derived for the identifier payments is
nodepool-payments, not pool-payments. -/
theorem pool_name_counterexample :
    ¬ (nodePoolName "payments" = "pool-" ++ "payments") := by decide

/-- C3 amended: the pool name is derived deterministically as
nodepool-<identifier>: the constructed object carries that name under
metadata, and on an unmatched pending demand both drafts submit exactly
that object. -/
theorem pool_name_derivation (pod : Pod) (s : Store) (D : String)
    (hph : pod.phase = "Pending")
    (hns : pod.nodeSelector.lookup "provision-for-team" = some D)
    (hl : listNodePools s = Except.ok []) :
    nodePoolName D = "nodepool-" ++ D ∧
    nestedStringRes (nodePoolObj D) ["metadata", "name"] =
      NestedRes.found (Val.vstr ("nodepool-" ++ D)) ∧
    (reconcileInline (GetResult.ok pod) s).creates = [nodePoolObj D] ∧
    (reconcileRefactored (GetResult.ok pod) s).creates = [nodePoolObj D] := by
  refine ⟨rfl, rfl, ?_, ?_⟩ <;>
  · cases hce : s.createErr <;>
      simp [reconcileInline, reconcileRefactored, checkPodNodeSelector,
        findMatchingNodePool, createNodePool, scanPools, hph, hns, hl, hce,
        scanPools_inline_eq]

/-- Witness for the amended C3: the payments demand against an empty
catalog creates the object named nodepool-payments. -/
theorem pool_name_derivation_witness :
    nodePoolName "payments" = "nodepool-" ++ "payments" ∧
    nestedStringRes (nodePoolObj "payments") ["metadata", "name"] =
      NestedRes.found (Val.vstr ("nodepool-" ++ "payments")) ∧
    (reconcileInline (GetResult.ok podPayments) storeEmptyOk).creates =
      [nodePoolObj "payments"] ∧
    (reconcileRefactored (GetResult.ok podPayments) storeEmptyOk).creates =
      [nodePoolObj "payments"] :=
  pool_name_derivation podPayments storeEmptyOk "payments" rfl rfl rfl

/-- C8: the constructed NodePool carries exactly one taint, namely
provision-for-team with the demand value and effect NoSchedule, together
with cpu and memory limits, the EC2NodeClass reference, a spot
capacity-type requirement, the 24h expiry bound, and a disruption budget
with the WhenEmpty idle-consolidation policy. -/
theorem created_pool_shape (D : String) :
    nestedSliceRes (nodePoolObj D) taintsPath =
      NestedRes.found (Val.varr [Val.vmap [("key", Val.vstr "provision-for-team"),
                                           ("value", Val.vstr D),
                                           ("effect", Val.vstr "NoSchedule")]]) ∧
    nestedFieldNoCopy (nodePoolObj D) ["spec", "limits"] =
      NestedRes.found (Val.vmap [("cpu", Val.vstr "12000m"),
                                 ("memory", Val.vstr "64Gi")]) ∧
    nestedFieldNoCopy (nodePoolObj D) ["spec", "template", "spec", "nodeClassRef"] =
      NestedRes.found (Val.vmap [("group", Val.vstr "karpenter.k8s.aws"),
                                 ("kind", Val.vstr "EC2NodeClass"),
                                 ("name", Val.vstr "custom")]) ∧
    nestedFieldNoCopy (nodePoolObj D) ["spec", "template", "spec", "requirements"] =
      NestedRes.found (Val.varr [Val.vmap [("key", Val.vstr "karpenter.sh/capacity-type"),
                                           ("operator", Val.vstr "In"),
                                           ("values", Val.varr [Val.vstr "spot"])]]) ∧
    nestedStringRes (nodePoolObj D) ["spec", "template", "spec", "expireAfter"] =
      NestedRes.found (Val.vstr "24h") ∧
    nestedFieldNoCopy (nodePoolObj D) ["spec", "disruption"] =
      NestedRes.found (Val.vmap [("budgets", Val.varr [Val.vmap [("nodes", Val.vstr "10%")]]),
                                 ("consolidateAfter", Val.vstr "10m"),
                                 ("consolidationPolicy", Val.vstr "WhenEmpty")]) :=
  ⟨rfl, rfl, rfl, rfl, rfl, rfl⟩

/-- C9: the exit policy of Reconcile: a workload not in the Pending phase
yields no action and no re-check; a matched demand yields a 5-second
re-check with no error; an unmatched demand whose creation succeeds yields
a 10-second re-check with no error. -/
theorem reconcile_exit_policy (pod : Pod) (s : Store) :
    (pod.phase ≠ "Pending" →
      reconcileInline (GetResult.ok pod) s = ⟨⟨0⟩, none, false, []⟩ ∧
      reconcileRefactored (GetResult.ok pod) s = ⟨⟨0⟩, none, false, []⟩) ∧
    (∀ D pools, pod.phase = "Pending" →
      pod.nodeSelector.lookup "provision-for-team" = some D →
      listNodePools s = Except.ok pools →
      (∃ p ∈ pools, PoolMatches p D) →
      reconcileInline (GetResult.ok pod) s = ⟨⟨5 * timeSecond⟩, none, true, []⟩ ∧
      reconcileRefactored (GetResult.ok pod) s = ⟨⟨5 * timeSecond⟩, none, true, []⟩) ∧
    (∀ D pools, pod.phase = "Pending" →
      pod.nodeSelector.lookup "provision-for-team" = some D →
      listNodePools s = Except.ok pools →
      (¬ ∃ p ∈ pools, PoolMatches p D) →
      s.createErr = none →
      reconcileInline (GetResult.ok pod) s =
        ⟨⟨10 * timeSecond⟩, none, true, [nodePoolObj D]⟩ ∧
      reconcileRefactored (GetResult.ok pod) s =
        ⟨⟨10 * timeSecond⟩, none, true, [nodePoolObj D]⟩) := by
  refine ⟨?_, ?_, ?_⟩
  · intro hph
    have hb : (pod.phase == "Pending") = false := by
      simp only [beq_eq_false_iff_ne, ne_eq]
      exact hph
    constructor <;> simp [reconcileInline, reconcileRefactored, hb]
  · intro D pools hph hns hl hm
    have hscan : scanPools D pools = true := (scanPools_true_iff D pools).mpr hm
    constructor <;>
      simp [reconcileInline, reconcileRefactored, checkPodNodeSelector,
        findMatchingNodePool, hph, hns, hl, hscan, scanPools_inline_eq]
  · intro D pools hph hns hl hm hce
    have hscan : scanPools D pools = false := by
      cases h : scanPools D pools
      · rfl
      · exact absurd ((scanPools_true_iff D pools).mp h) hm
    constructor <;>
      simp [reconcileInline, reconcileRefactored, checkPodNodeSelector,
        findMatchingNodePool, createNodePool, hph, hns, hl, hscan, hce,
        scanPools_inline_eq]

/-- Witness for C9: the three table rows instantiated on a Running Pod, a
matched payments demand, and an unmatched payments demand with a
successful create. -/
theorem reconcile_exit_policy_witness :
    (reconcileInline (GetResult.ok podRunning) storeEmptyOk = ⟨⟨0⟩, none, false, []⟩ ∧
     reconcileRefactored (GetResult.ok podRunning) storeEmptyOk = ⟨⟨0⟩, none, false, []⟩) ∧
    (reconcileInline (GetResult.ok podPayments) storeMatched =
        ⟨⟨5 * timeSecond⟩, none, true, []⟩ ∧
     reconcileRefactored (GetResult.ok podPayments) storeMatched =
        ⟨⟨5 * timeSecond⟩, none, true, []⟩) ∧
    (reconcileInline (GetResult.ok podPayments) storeEmptyOk =
        ⟨⟨10 * timeSecond⟩, none, true, [nodePoolObj "payments"]⟩ ∧
     reconcileRefactored (GetResult.ok podPayments) storeEmptyOk =
        ⟨⟨10 * timeSecond⟩, none, true, [nodePoolObj "payments"]⟩) := by
  have hpm : PoolMatches poolPayments "payments" := by
    refine ⟨[Val.vmap [("key", Val.vstr "some-other-key"),
                       ("value", Val.vstr "payments"),
                       ("effect", Val.vstr "NoExecute")]], rfl, ?_⟩
    exact ⟨_, List.mem_singleton_self _, rfl⟩
  refine ⟨(reconcile_exit_policy podRunning storeEmptyOk).1 (by decide),
    (reconcile_exit_policy podPayments storeMatched).2.1 "payments" [poolPayments]
      rfl rfl rfl ⟨poolPayments, List.mem_singleton_self _, hpm⟩,
    (reconcile_exit_policy podPayments storeEmptyOk).2.2 "payments" []
      rfl rfl rfl (by simp) rfl⟩
